import Mathlib

/-!
Verification of the goal-oriented conversational turn engine of the
Playable Character Cards demo repository.

The repository is a static showcase: the turn engine behind the documented
`/play-turn` endpoint is described by the specification but not shipped as
code. Following the specification, the engine (data model, provider
adapters, adapter registry, goal evaluator, turn state machine and the
conversation-context store) is modelled here definition by definition from
the spec's words. The client-side conversation UI component
(`src/examples/ui-patterns/conversation.ts`) is real pseudo-code in the
repository and is embedded directly from that source.
-/

namespace CardEngine

/-! ## String helpers

Character-level implementations of trimming, lower-casing, word splitting
and substring search, used by validation and the heuristic goal evaluator.
They mirror the ordinary semantics of `trim` / `toLowerCase` / substring
search in the host language. -/

/-- Whitespace test used by trimming (space, tab, newline, carriage return). -/
def isWsChar (c : Char) : Bool :=
  c = ' ' || c = '\t' || c = '\n' || c = '\r'

/-- Drop leading whitespace of a character list. -/
def dropLeadingWs (l : List Char) : List Char :=
  l.dropWhile isWsChar

/-- Trim whitespace from both ends of a character list. -/
def trimChars (l : List Char) : List Char :=
  ((dropLeadingWs l).reverse.dropWhile isWsChar).reverse

/-- Trim whitespace from both ends of a string (models `String.trim` / JS `trim`). -/
def trimStr (s : String) : String :=
  String.mk (trimChars s.data)

/-- Lower-case every character of a string (models `toLowerCase`). -/
def lowerStr (s : String) : String :=
  String.mk (s.data.map Char.toLower)

/-- Split a character list into space-separated words. -/
def splitWordsAux : List Char → List Char → List String
  | [], acc => [String.mk acc.reverse]
  | c :: cs, acc =>
      if c = ' ' then String.mk acc.reverse :: splitWordsAux cs []
      else splitWordsAux cs (c :: acc)

/-- Split a string into space-separated words. -/
def splitWords (s : String) : List String :=
  splitWordsAux s.data []

/-- Is `p` a prefix of `l`? -/
def isPrefixCh : List Char → List Char → Bool
  | [], _ => true
  | _ :: _, [] => false
  | p :: ps, c :: cs => p = c && isPrefixCh ps cs

/-- Does `hay` contain `pat` as a contiguous sublist? -/
def containsCh (hay pat : List Char) : Bool :=
  match hay with
  | [] => pat.isEmpty
  | _ :: rest => isPrefixCh pat hay || containsCh rest pat

/-- Substring test on strings. -/
def containsStr (hay pat : String) : Bool :=
  containsCh hay.data pat.data

/-! ## Data model (spec §3) -/

/-- Message role: user or assistant. -/
inductive Role where
  | user
  | assistant
deriving DecidableEq, Repr

/-- Modelled from the spec: `Message{role: user|assistant, text, timestamp}`,
an element of a conversation history. -/
structure Message where
  role : Role
  text : String
  timestamp : Nat
deriving DecidableEq, Repr

/-- Modelled from the spec: `CardDescriptor` — immutable value
`{ id, description (persona text), goal (objective text) }`. -/
structure CardDescriptor where
  id : String
  description : String
  goal : String
deriving DecidableEq, Repr

/-- Modelled from the spec: `ConversationContext` — mutable record keyed by
conversation key, holding `cardId`, the ordered message history,
`goalAchieved` and `turnCount`. -/
structure ConversationContext where
  cardId : String
  history : List Message
  goalAchieved : Bool
  turnCount : Nat
deriving DecidableEq, Repr

/-- Modelled from the spec: `TurnRequest` —
`{ conversationKey, card, userMessage }`. -/
structure TurnRequest where
  conversationKey : String
  card : CardDescriptor
  userMessage : String
deriving DecidableEq, Repr

/-- Modelled from the spec: `TurnResult` — the full response contract
`{ cardId, cardDescription, cardGoal, userMessage, aiResponse,
isGoalAchieved }`, always echoing the inputs alongside the generated
fields. -/
structure TurnResult where
  cardId : String
  cardDescription : String
  cardGoal : String
  userMessage : String
  aiResponse : String
  isGoalAchieved : Bool
deriving DecidableEq, Repr

/-! ## Failure taxonomy (spec §7) -/

/-- Modelled from the spec: adapter-level failure classes — `Timeout`,
transport-class transient failures (rate limiting, 5xx-equivalent),
`EmptyResponse` (backend returned unusable content), and the non-retryable
structural class (rejected content, invalid persona,
malformed-request-equivalent, auth-equivalent). -/
inductive AdapterFailure where
  | timeout
  | transport
  | emptyResponse
  | nonRetryable
deriving DecidableEq, Repr

/-- Modelled from the spec: the retryable class at the registry level —
`Timeout` and transport-class failures cause failover, and `EmptyResponse`
is "treated as retryable at the registry level (try next adapter)";
the structural class is not retryable. -/
def retryableClass : AdapterFailure → Bool
  | .timeout => true
  | .transport => true
  | .emptyResponse => true
  | .nonRetryable => false

/-- Modelled from the spec: `AdapterResult` — `{ text, providerId }`. -/
structure AdapterResult where
  text : String
  providerId : String
deriving DecidableEq, Repr

/-! ## ProviderAdapter (spec §4.1) -/

/-- Modelled from the spec: a `ProviderAdapter` — a uniform interface to one
backend. The backend behaviour is a function of the system prompt, history,
user message and the attempt number (so bounded retry is observable); it
yields raw content or a failure. -/
structure ProviderAdapter where
  providerId : String
  backend : String → List Message → String → Nat → Except AdapterFailure String

/-- Modelled from the spec: within-adapter retry is only for transient
(transport-class: rate limiting, 5xx-equivalent) failures. -/
def transientClass : AdapterFailure → Bool
  | .transport => true
  | _ => false

/-- Modelled from the spec: fixed max attempts of the adapter's bounded
retry loop ("fixed max attempts, e.g. 3"). -/
def maxAttempts : Nat := 3

/-- Modelled from the spec: a single adapter attempt. Normalizes the backend
content to plain text (trim); empty content after normalization fails with
`EmptyResponse` rather than returning blank text. -/
def adapterAttempt (a : ProviderAdapter) (sys : String) (hist : List Message)
    (u : String) (n : Nat) : Except AdapterFailure AdapterResult :=
  match a.backend sys hist u n with
  | .error e => .error e
  | .ok raw =>
      let t := trimStr raw
      if t = "" then .error .emptyResponse
      else .ok ⟨t, a.providerId⟩

/-- Modelled from the spec: the bounded retry loop — retry only transient
failures, up to the remaining fuel. -/
def completeFrom (a : ProviderAdapter) (sys : String) (hist : List Message)
    (u : String) : Nat → Nat → Except AdapterFailure AdapterResult
  | attempt, 0 => adapterAttempt a sys hist u attempt
  | attempt, fuel + 1 =>
      match adapterAttempt a sys hist u attempt with
      | .error e =>
          if transientClass e then completeFrom a sys hist u (attempt + 1) fuel
          else .error e
      | .ok r => .ok r

/-- Modelled from the spec: `ProviderAdapter.complete` — bounded retry
(max 3 attempts) around single attempts. -/
def ProviderAdapter.complete (a : ProviderAdapter) (sys : String)
    (hist : List Message) (u : String) : Except AdapterFailure AdapterResult :=
  completeFrom a sys hist u 0 (maxAttempts - 1)

deriving instance DecidableEq for Except

/-! ## AdapterRegistry (spec §4.2) -/

/-- Modelled from the spec: registry-level failure — either a propagated
adapter failure (non-retryable, structural) or `AllProvidersExhausted`. -/
inductive RegistryFailure where
  | adapterFailure (e : AdapterFailure)
  | allProvidersExhausted
deriving DecidableEq, Repr

namespace AdapterRegistry

/-- Modelled from the spec: `AdapterRegistry.complete` instrumented with the
list of provider ids actually tried. Adapters are tried in configured
priority order; a retryable-class failure from adapter `i` moves on to
adapter `i+1`, a non-retryable failure propagates immediately, and
`AllProvidersExhausted` results when every adapter failed retryably. -/
def run : List ProviderAdapter → String → List Message →
    String → List String × Except RegistryFailure AdapterResult
  | [], _, _, _ => ([], .error .allProvidersExhausted)
  | a :: rest, sys, hist, u =>
      match a.complete sys hist u with
      | .ok r => ([a.providerId], .ok r)
      | .error e =>
          if retryableClass e then
            let (tried, res) := run rest sys hist u
            (a.providerId :: tried, res)
          else ([a.providerId], .error (.adapterFailure e))

/-- Modelled from the spec: `AdapterRegistry.complete` — same signature as a
single adapter, trying registered adapters in priority order. -/
def complete (as : List ProviderAdapter) (sys : String)
    (hist : List Message) (u : String) :
    Except RegistryFailure AdapterResult :=
  (run as sys hist u).2

end AdapterRegistry

/-! ## GoalEvaluator (spec §4.4) -/

/-- Modelled from the spec: goal-derived terms for the heuristic strategy —
the lower-cased words of the goal text, keeping only meaningful terms
(length above a stop-word threshold). -/
def goalKeywords (goal : String) : List String :=
  (splitWords (lowerStr goal)).filter (fun w => 3 < w.length)

/-- Modelled from the spec: the heuristic strategy — case-insensitive
substring match of goal-derived terms against the assistant's latest
response. -/
def heuristicEval (goal response : String) : Bool :=
  (goalKeywords goal).any (fun w => containsStr (lowerStr response) w)

/-- The assistant's latest response text in a history (empty if none). -/
def latestAssistantText (history : List Message) : String :=
  match history.reverse.find? (fun m => m.role = Role.assistant) with
  | some m => m.text
  | none => ""

/-- Modelled from the spec: evaluator strategy — heuristic keyword match, or
model-assisted judgment via a secondary backend call (a function of the goal
and the transcript) that may fail. -/
inductive EvaluatorStrategy where
  | heuristic
  | modelAssisted (judge : String → List Message → Except AdapterFailure Bool)

namespace GoalEvaluator

/-- Modelled from the spec: `GoalEvaluator.evaluate(cardGoal, history
including the new exchange) -> boolean`. The model-assisted strategy
degrades to "not achieved" if its secondary call fails — it never
propagates an error (the return type is `Bool`, not a fallible result). -/
def evaluate (strat : EvaluatorStrategy) (goal : String)
    (history : List Message) : Bool :=
  match strat with
  | .heuristic => heuristicEval goal (latestAssistantText history)
  | .modelAssisted judge =>
      match judge goal history with
      | .ok b => b
      | .error _ => false

end GoalEvaluator

/-! ## ConversationContext store (spec §4.3) -/

/-- Modelled from the spec: the keyed context store, as an association list
from conversation keys to contexts. -/
def Store := List (String × ConversationContext)

instance : DecidableEq Store := by
  unfold Store
  infer_instance

/-- Modelled from the spec: `get(key) -> ConversationContext | absent`. -/
def Store.get : Store → String → Option ConversationContext
  | [], _ => none
  | p :: rest, k => if p.1 = k then some p.2 else Store.get rest k

/-- Modelled from the spec: `upsert(key, context)` — replace the binding for
the key if present, else add it. -/
def Store.upsert (s : Store) (k : String) (c : ConversationContext) : Store :=
  match s with
  | [] => [(k, c)]
  | p :: rest =>
      if p.1 = k then (k, c) :: rest
      else p :: Store.upsert rest k c

/-- Modelled from the spec: the fresh context created on the first turn for
a key ("created on first turn for a key if absent"). -/
def freshContext (cardId : String) : ConversationContext :=
  ⟨cardId, [], false, 0⟩

/-! ## TurnEngine (spec §4.5) -/

/-- Modelled from the spec: turn-level failure taxonomy — `InvalidInput`
(empty user message after trimming), `ContextCardMismatch` (card id does not
match the context bound to the key), or a generation failure surfaced from
the registry. -/
inductive TurnFailure where
  | invalidInput
  | contextCardMismatch
  | generationFailed (e : RegistryFailure)
deriving DecidableEq, Repr

/-- Modelled from the spec: the engine configuration — the registered
adapters in priority order and the configured evaluator strategy. -/
structure Env where
  adapters : List ProviderAdapter
  evaluator : EvaluatorStrategy

/-- Modelled from the spec: validation and Loading — reject an empty (after
trimming) user message with `InvalidInput` before anything else; fetch or
create the context for the key; a card-id mismatch with an existing context
fails with `ContextCardMismatch`. -/
def validate (store : Store) (req : TurnRequest) :
    Except TurnFailure ConversationContext :=
  if trimStr req.userMessage = "" then .error .invalidInput
  else
    match store.get req.conversationKey with
    | none => .ok (freshContext req.card.id)
    | some c =>
        if c.cardId = req.card.id then .ok c
        else .error .contextCardMismatch

/-- Modelled from the spec: Generating, Evaluating and the construction of
the turn's outputs, given a loaded context. Returns the provider ids the
registry tried, and either the failure or the `TurnResult` together with
the updated context to persist. Evaluation is short-circuited when
`goalAchieved` is already true; `goalAchieved` is updated by OR (true
wins); history is append-only; `turnCount` increments. -/
def turnCompute (env : Env) (now : Nat) (req : TurnRequest)
    (ctx : ConversationContext) :
    List String × Except TurnFailure (TurnResult × ConversationContext) :=
  match AdapterRegistry.run env.adapters req.card.description ctx.history
      req.userMessage with
  | (tried, .error e) => (tried, .error (.generationFailed e))
  | (tried, .ok res) =>
      let userMsg : Message := ⟨.user, req.userMessage, now⟩
      let asstMsg : Message := ⟨.assistant, res.text, now⟩
      let newHistory := ctx.history ++ [userMsg, asstMsg]
      let achieved :=
        if ctx.goalAchieved then true
        else GoalEvaluator.evaluate env.evaluator req.card.goal newHistory
      let newCtx : ConversationContext :=
        ⟨ctx.cardId, newHistory, achieved, ctx.turnCount + 1⟩
      (tried,
       .ok (⟨req.card.id, req.card.description, req.card.goal,
             req.userMessage, res.text, achieved⟩, newCtx))

/-- The observable outcome of one turn: the result or failure, the store
after the turn, and the provider ids the registry tried. -/
structure TurnOutcome where
  result : Except TurnFailure TurnResult
  store : Store
  tried : List String
deriving DecidableEq

namespace TurnEngine

/-- Modelled from the spec: the per-turn state machine
`Loading → Generating → Evaluating → Persisting → Done`, instrumented with
the tried provider ids. On any failure the store is returned unchanged
(Persisting is skipped — no partial turn is recorded); on success the
updated context is atomically upserted. -/
def playTurnRun (env : Env) (now : Nat) (store : Store) (req : TurnRequest) :
    TurnOutcome :=
  match validate store req with
  | .error e => ⟨.error e, store, []⟩
  | .ok ctx =>
      match turnCompute env now req ctx with
      | (tried, .error e) => ⟨.error e, store, tried⟩
      | (tried, .ok (r, newCtx)) =>
          ⟨.ok r, store.upsert req.conversationKey newCtx, tried⟩

/-- Modelled from the spec: `playTurn(request) -> TurnResult` with explicit
store passing — the sole entry point. -/
def playTurn (env : Env) (now : Nat) (store : Store) (req : TurnRequest) :
    Except TurnFailure TurnResult × Store :=
  let o := playTurnRun env now store req
  (o.result, o.store)

/-- Modelled from the spec: a sequence of turns against one store, returning
the per-turn results and the final store. -/
def runTurns (env : Env) (now : Nat) (store : Store) :
    List TurnRequest → List (Except TurnFailure TurnResult) × Store
  | [] => ([], store)
  | r :: rs =>
      let (res, store1) := playTurn env now store r
      let (ress, store2) := runTurns env now store1 rs
      (res :: ress, store2)

end TurnEngine

/-- The goal flag currently stored for a key (false when absent). -/
def goalFlagAt (store : Store) (k : String) : Bool :=
  match store.get k with
  | some c => c.goalAchieved
  | none => false

end CardEngine

/-!
## Client conversation UI (src/examples/ui-patterns/conversation.ts)

Embedding of `ConversationManager.handleSendMessage`. DOM reads/writes and
the declared external helpers (`appendMessage`, `showGoalAchievedBanner`,
`disableUserInput`, `console.error`, `fetch`) are modelled as state fields
plus an ordered event trace; the outcome of the awaited `fetch`/`json()`
pair is a parameter since the network is external to the component.
-/

namespace ConversationUI

/-- The response shape the client consumes
(`interface PlayTurnResponse` in conversation.ts). -/
structure PlayTurnResponse where
  ai_response : String
  is_goal_achieved : Bool
deriving DecidableEq, Repr

/-- Outcome of the `fetch('/play-turn', ...)` call followed by
`response.json()`: an HTTP error status (`!response.ok`, thrown as an
`Error`), a network/parse failure (the promise rejects), or a parsed
response body. -/
inductive FetchOutcome where
  | httpError (status : Nat)
  | networkError
  | success (resp : PlayTurnResponse)
deriving DecidableEq, Repr

/-- One observable UI effect of `handleSendMessage`, in program order. -/
inductive UIEvent where
  | appendMsg (sender : String) (text : String)
  | clearInput
  | setSendDisabled (b : Bool)
  | fetchCall (cardId : String) (userMessage : String)
  | showBanner
  | disableInput
  | logError
deriving DecidableEq, Repr

/-- The component's visible state: the message input's value, the send
button's `disabled` property, the flags set by the external helpers, and
the ordered trace of effects. -/
structure UIState where
  inputValue : String
  sendDisabled : Bool
  inputDisabled : Bool
  bannerShown : Bool
  trace : List UIEvent
deriving DecidableEq, Repr

/-- The hard-coded apology appended in the `catch` block. -/
def fallbackText : String := "Sorry, I'm having a little trouble thinking right now."

/-- Embedding of `ConversationManager.handleSendMessage` (conversation.ts,
lines 27-64): trim the input; return early if empty; append the user
message, clear the input, disable the send button; `fetch`; on success
append the AI response and, if `is_goal_achieved`, show the banner and
disable user input; on any thrown error log it and append the apology; in
`finally`, set the send button's `disabled` back to `false`. -/
def handleSendMessage (cardId : String) (fetchResult : FetchOutcome)
    (st : UIState) : UIState :=
  let userMessage := CardEngine.trimStr st.inputValue
  if userMessage = "" then st
  else
    let st1 : UIState :=
      { st with trace := st.trace ++ [.appendMsg "user" userMessage] }
    let st2 : UIState :=
      { st1 with inputValue := "", trace := st1.trace ++ [.clearInput] }
    let st3 : UIState :=
      { st2 with sendDisabled := true,
                 trace := st2.trace ++ [.setSendDisabled true] }
    let st4 : UIState :=
      { st3 with trace := st3.trace ++ [.fetchCall cardId userMessage] }
    let st5 : UIState :=
      match fetchResult with
      | .success resp =>
          let a : UIState :=
            { st4 with trace := st4.trace ++ [.appendMsg "ai" resp.ai_response] }
          if resp.is_goal_achieved then
            { a with bannerShown := true, inputDisabled := true,
                     trace := a.trace ++ [.showBanner, .disableInput] }
          else a
      | _ =>
          { st4 with trace := st4.trace ++ [.logError, .appendMsg "ai" fallbackText] }
    { st5 with sendDisabled := false,
               trace := st5.trace ++ [.setSendDisabled false] }

end ConversationUI

namespace CardEngine

/-! ## Sample fixtures

Concrete adapters, cards and requests used to instantiate the theorems
below on closed inputs. -/

/-- An adapter whose backend always answers with a response matching the
sample card's goal keywords. -/
def okAdapter : ProviderAdapter :=
  ⟨"gemini", fun _ _ _ _ => .ok "A chemical reaction transforms substances."⟩

/-- An adapter whose backend answers with text unrelated to the sample
card's goal. -/
def dullAdapter : ProviderAdapter :=
  ⟨"gemini", fun _ _ _ _ => .ok "Hmph. Ask me tomorrow."⟩

/-- An adapter whose backend always fails with a transport-class error. -/
def transportAdapter : ProviderAdapter :=
  ⟨"flaky", fun _ _ _ _ => .error .transport⟩

/-- An adapter whose backend always fails with a non-retryable (structural)
error. -/
def rejectAdapter : ProviderAdapter :=
  ⟨"strict", fun _ _ _ _ => .error .nonRetryable⟩

/-- An adapter whose backend returns only whitespace. -/
def blankAdapter : ProviderAdapter :=
  ⟨"blank", fun _ _ _ _ => .ok "   "⟩

/-- The sample card from the documented `/play-turn` example. -/
def sampleCard : CardDescriptor :=
  ⟨"42", "A grumpy but brilliant medieval alchemist.",
   "Explain the concept of a chemical reaction."⟩

/-- A sample request on a fresh conversation key. -/
def sampleReq : TurnRequest :=
  ⟨"k1", sampleCard, "Can you explain what a catalyst is?"⟩

/-- Engine configured with the single sample adapter and the heuristic
evaluator. -/
def heuristicEnv : Env := ⟨[okAdapter], .heuristic⟩

/-- Engine whose generation succeeds but whose model-assisted secondary
evaluation call always fails. -/
def failingJudgeEnv : Env :=
  ⟨[dullAdapter], .modelAssisted (fun _ _ => .error .timeout)⟩

/-- Engine with no adapter ever succeeding (single transport-failing
adapter). -/
def downEnv : Env := ⟨[transportAdapter], .heuristic⟩

/-- A store already holding one conversation on key `"k1"` bound to card
`"42"`. -/
def busyStore : Store :=
  [("k1", ⟨"42", [⟨.user, "hi", 0⟩, ⟨.assistant, "yo", 0⟩], false, 1⟩)]

/-- A store whose conversation on key `"k1"` has already achieved its
goal. -/
def achievedStore : Store :=
  [("k1", ⟨"42", [⟨.user, "hi", 0⟩, ⟨.assistant, "A chemical reaction!", 0⟩],
    true, 1⟩)]

/-- A request whose user message is blank after trimming. -/
def emptyMsgReq : TurnRequest := ⟨"k1", sampleCard, "   "⟩

/-- A request whose card id does not match the context stored for its key in
`busyStore`. -/
def mismatchReq : TurnRequest :=
  ⟨"k1", ⟨"7", "A pirate.", "Teach knots."⟩, "hello"⟩

/-! ## Concurrency model (spec §5)

Modelled from the spec: per-key exclusivity — "the store's get/upsert pair
for a key is a critical section" and turns sharing a conversation key must
not run concurrently. Each turn is split at its store operations into a
read event (the validating get) and a write event (the pure
Generating/Evaluating computation followed by the upsert); the suspension
point between them is where another turn could interleave. A schedule is an
interleaving of the two turns' event sequences; the mandated per-key lock
admits only schedules whose critical sections are not interleaved. -/

/-- Identifies one of the two racing turns. -/
inductive TurnTag where
  | first
  | second
deriving DecidableEq, Repr

/-- A store operation of a turn. -/
inductive StoreOp where
  | read
  | write
deriving DecidableEq, Repr

/-- A scheduled event: one store operation of one turn. -/
structure Ev where
  tag : TurnTag
  op : StoreOp
deriving DecidableEq, Repr

/-- The event sequence of one turn: read the context, then write it back. -/
def turnEvents (t : TurnTag) : List Ev := [⟨t, .read⟩, ⟨t, .write⟩]

/-- `Interleaves xs ys zs`: `zs` is an interleaving of `xs` and `ys`
preserving both orders. -/
inductive Interleaves : List Ev → List Ev → List Ev → Prop where
  | nil : Interleaves [] [] []
  | left {x : Ev} {xs ys zs : List Ev} :
      Interleaves xs ys zs → Interleaves (x :: xs) ys (x :: zs)
  | right {y : Ev} {xs ys zs : List Ev} :
      Interleaves xs ys zs → Interleaves xs (y :: ys) (y :: zs)

/-- A turn's critical section is respected in a schedule when its read is
immediately followed by its write — no foreign store operation between
them. -/
def criticalAdjacent (t : TurnTag) (s : List Ev) : Bool :=
  (s.zip s.tail).any
    (fun p => p.1 = (⟨t, .read⟩ : Ev) && p.2 = (⟨t, .write⟩ : Ev))

/-- Modelled from the spec: a schedule respects the per-key lock when both
turns' get/upsert critical sections are uninterleaved. -/
def lockRespecting (s : List Ev) : Bool :=
  criticalAdjacent .first s && criticalAdjacent .second s

/-- Mid-schedule state of a pair of in-flight turns: the shared store, each
turn's captured read outcome (none before its read event), and each turn's
final outcome (none before its write event). -/
structure PairState where
  store : Store
  read1 : Option (Except TurnFailure ConversationContext)
  read2 : Option (Except TurnFailure ConversationContext)
  out1 : Option (Except TurnFailure TurnResult)
  out2 : Option (Except TurnFailure TurnResult)

/-- The write phase of a turn: from the captured read outcome, run the pure
Generating/Evaluating computation and upsert the new context. -/
def writePhase (env : Env) (now : Nat) (req : TurnRequest)
    (readRes : Option (Except TurnFailure ConversationContext))
    (store : Store) : Store × Option (Except TurnFailure TurnResult) :=
  match readRes with
  | none => (store, none)
  | some (.error e) => (store, some (.error e))
  | some (.ok ctx) =>
      match turnCompute env now req ctx with
      | (_, .error e) => (store, some (.error e))
      | (_, .ok (r, c)) => (store.upsert req.conversationKey c, some (.ok r))

/-- One scheduler step: perform the named store event of the named turn. -/
def pairStep (env : Env) (now : Nat) (req1 req2 : TurnRequest)
    (st : PairState) (e : Ev) : PairState :=
  match e.tag, e.op with
  | .first, .read => { st with read1 := some (validate st.store req1) }
  | .second, .read => { st with read2 := some (validate st.store req2) }
  | .first, .write =>
      let p := writePhase env now req1 st.read1 st.store
      { st with store := p.1, out1 := p.2 }
  | .second, .write =>
      let p := writePhase env now req2 st.read2 st.store
      { st with store := p.1, out2 := p.2 }

/-- Execute a schedule of the two turns' events from an initial store. -/
def execPair (env : Env) (now : Nat) (store : Store) (req1 req2 : TurnRequest)
    (s : List Ev) : PairState :=
  s.foldl (pairStep env now req1 req2) ⟨store, none, none, none, none⟩

/-- A second sample request on the same key as `sampleReq`. -/
def secondReq : TurnRequest := ⟨"k1", sampleCard, "And what is an acid?"⟩

/-! ## Basic lemmas about the store and the turn pipeline -/

lemma get_upsert_same (s : Store) (k : String) (c : ConversationContext) :
    (s.upsert k c).get k = some c := by
  induction s with
  | nil => simp [Store.upsert, Store.get]
  | cons p rest ih =>
      by_cases h : p.1 = k
      · simp [Store.upsert, h, Store.get]
      · simp [Store.upsert, h, Store.get, ih]

lemma get_upsert_ne (s : Store) (k k2 : String) (c : ConversationContext)
    (h : k2 ≠ k) : (s.upsert k c).get k2 = s.get k2 := by
  induction s with
  | nil => simp [Store.upsert, Store.get, Ne.symm h]
  | cons p rest ih =>
      by_cases hp : p.1 = k
      · simp [Store.upsert, hp, Store.get, Ne.symm h]
      · simp [Store.upsert, hp, Store.get, ih]

lemma validate_ok_of_some {store : Store} {req : TurnRequest}
    {c ctx : ConversationContext}
    (hget : store.get req.conversationKey = some c)
    (h : validate store req = .ok ctx) : ctx = c := by
  unfold validate at h
  split at h
  · exact absurd h (by simp)
  · split at h
    · rename_i heq
      rw [hget] at heq
      exact absurd heq (by simp)
    · rename_i c2 heq
      rw [hget] at heq
      obtain rfl := Option.some.inj heq
      split at h
      · exact (Except.ok.inj h).symm
      · exact absurd h (by simp)

lemma validate_ok_of_none {store : Store} {req : TurnRequest}
    {ctx : ConversationContext}
    (hget : store.get req.conversationKey = none)
    (h : validate store req = .ok ctx) : ctx = freshContext req.card.id := by
  unfold validate at h
  split at h
  · exact absurd h (by simp)
  · split at h
    · exact (Except.ok.inj h).symm
    · rename_i c2 heq
      rw [hget] at heq
      exact absurd heq (by simp)

lemma turnCompute_ok {env : Env} {now : Nat} {req : TurnRequest}
    {ctx : ConversationContext} {tried : List String} {r : TurnResult}
    {c : ConversationContext}
    (h : turnCompute env now req ctx = (tried, .ok (r, c))) :
    c.goalAchieved = r.isGoalAchieved ∧
    (ctx.goalAchieved = true → r.isGoalAchieved = true) ∧
    c.history = ctx.history ++
      [⟨.user, req.userMessage, now⟩, ⟨.assistant, r.aiResponse, now⟩] ∧
    c.cardId = ctx.cardId ∧
    c.turnCount = ctx.turnCount + 1 ∧
    r.cardId = req.card.id ∧
    r.cardDescription = req.card.description ∧
    r.cardGoal = req.card.goal ∧
    r.userMessage = req.userMessage := by
  unfold turnCompute at h
  split at h
  · exact absurd h (by simp)
  · simp only [Prod.mk.injEq, Except.ok.injEq] at h
    obtain ⟨-, hr, hc⟩ := h
    subst hr
    subst hc
    refine ⟨rfl, ?_, rfl, rfl, rfl, rfl, rfl, rfl, rfl⟩
    intro hg
    simp [hg]

lemma playTurnRun_error {env : Env} {now : Nat} {store store2 : Store}
    {req : TurnRequest} {e : TurnFailure} {tried : List String}
    (h : TurnEngine.playTurnRun env now store req = ⟨.error e, store2, tried⟩) :
    store2 = store := by
  unfold TurnEngine.playTurnRun at h
  split at h
  · exact (TurnOutcome.mk.injEq .. ▸ h).2.1.symm
  · split at h
    · exact (TurnOutcome.mk.injEq .. ▸ h).2.1.symm
    · exact absurd (TurnOutcome.mk.injEq .. ▸ h).1 (by simp)

lemma playTurnRun_ok {env : Env} {now : Nat} {store store2 : Store}
    {req : TurnRequest} {r : TurnResult} {tried : List String}
    (h : TurnEngine.playTurnRun env now store req = ⟨.ok r, store2, tried⟩) :
    ∃ ctx c, validate store req = .ok ctx ∧
      turnCompute env now req ctx = (tried, .ok (r, c)) ∧
      store2 = store.upsert req.conversationKey c := by
  unfold TurnEngine.playTurnRun at h
  split at h
  · exact absurd (TurnOutcome.mk.injEq .. ▸ h).1 (by simp)
  · rename_i ctx hval
    split at h
    · exact absurd (TurnOutcome.mk.injEq .. ▸ h).1 (by simp)
    · rename_i tried2 r2 c2 hcomp
      obtain ⟨h1, h2, h3⟩ := TurnOutcome.mk.injEq .. ▸ h
      refine ⟨ctx, c2, hval, ?_, h2.symm⟩
      rw [hcomp, h3, (Except.ok.injEq .. ▸ h1 : r2 = r)]

lemma playTurn_error {env : Env} {now : Nat} {store store2 : Store}
    {req : TurnRequest} {e : TurnFailure}
    (h : TurnEngine.playTurn env now store req = (.error e, store2)) :
    store2 = store := by
  unfold TurnEngine.playTurn at h
  obtain ⟨h1, h2⟩ := Prod.mk.injEq .. ▸ h
  exact playTurnRun_error
    (show TurnEngine.playTurnRun env now store req =
      ⟨.error e, store2, (TurnEngine.playTurnRun env now store req).tried⟩ from by
        cases hq : TurnEngine.playTurnRun env now store req
        simp only [hq] at h1 h2 ⊢
        rw [h1, h2])

lemma playTurn_ok {env : Env} {now : Nat} {store store2 : Store}
    {req : TurnRequest} {r : TurnResult}
    (h : TurnEngine.playTurn env now store req = (.ok r, store2)) :
    ∃ ctx c tried, validate store req = .ok ctx ∧
      turnCompute env now req ctx = (tried, .ok (r, c)) ∧
      store2 = store.upsert req.conversationKey c := by
  unfold TurnEngine.playTurn at h
  obtain ⟨h1, h2⟩ := Prod.mk.injEq .. ▸ h
  obtain ⟨ctx, c, hv, hc, hs⟩ := playTurnRun_ok
    (show TurnEngine.playTurnRun env now store req =
      ⟨.ok r, store2, (TurnEngine.playTurnRun env now store req).tried⟩ from by
        cases hq : TurnEngine.playTurnRun env now store req
        simp only [hq] at h1 h2 ⊢
        rw [h1, h2])
  exact ⟨ctx, c, _, hv, hc, hs⟩

end CardEngine

namespace CardEngine

/-! ## Claim theorems -/

/-- C2. Echo invariant: for every successful turn, the TurnResult's
card_id, card_description, card_goal, and user_message fields are exactly
equal to the request's card id, the card's description, the card's goal,
and the request's user message respectively, with no modification by the
engine. -/
theorem c2_echo_invariant (env : Env) (now : Nat) (store store2 : Store)
    (req : TurnRequest) (r : TurnResult)
    (h : TurnEngine.playTurn env now store req = (.ok r, store2)) :
    r.cardId = req.card.id ∧ r.cardDescription = req.card.description ∧
    r.cardGoal = req.card.goal ∧ r.userMessage = req.userMessage := by
  obtain ⟨ctx, c, tried, hv, hc, hs⟩ := playTurn_ok h
  obtain ⟨-, -, -, -, -, h6, h7, h8, h9⟩ := turnCompute_ok hc
  exact ⟨h6, h7, h8, h9⟩

/-- Witness for C2 at a concrete successful turn. -/
theorem c2_echo_invariant_witness :
    TurnEngine.playTurn heuristicEnv 0 [] sampleReq =
      (.ok ⟨"42", "A grumpy but brilliant medieval alchemist.",
        "Explain the concept of a chemical reaction.",
        "Can you explain what a catalyst is?",
        "A chemical reaction transforms substances.", true⟩,
       [("k1", ⟨"42",
          [⟨.user, "Can you explain what a catalyst is?", 0⟩,
           ⟨.assistant, "A chemical reaction transforms substances.", 0⟩],
          true, 1⟩)]) ∧
    ((⟨"42", "A grumpy but brilliant medieval alchemist.",
        "Explain the concept of a chemical reaction.",
        "Can you explain what a catalyst is?",
        "A chemical reaction transforms substances.", true⟩ :
      TurnResult).cardId = sampleReq.card.id ∧
     (⟨"42", "A grumpy but brilliant medieval alchemist.",
        "Explain the concept of a chemical reaction.",
        "Can you explain what a catalyst is?",
        "A chemical reaction transforms substances.", true⟩ :
      TurnResult).cardDescription = sampleReq.card.description ∧
     (⟨"42", "A grumpy but brilliant medieval alchemist.",
        "Explain the concept of a chemical reaction.",
        "Can you explain what a catalyst is?",
        "A chemical reaction transforms substances.", true⟩ :
      TurnResult).cardGoal = sampleReq.card.goal ∧
     (⟨"42", "A grumpy but brilliant medieval alchemist.",
        "Explain the concept of a chemical reaction.",
        "Can you explain what a catalyst is?",
        "A chemical reaction transforms substances.", true⟩ :
      TurnResult).userMessage = sampleReq.userMessage) :=
  ⟨by decide,
   c2_echo_invariant heuristicEnv 0 []
     [("k1", ⟨"42",
        [⟨.user, "Can you explain what a catalyst is?", 0⟩,
         ⟨.assistant, "A chemical reaction transforms substances.", 0⟩],
        true, 1⟩)]
     sampleReq
     ⟨"42", "A grumpy but brilliant medieval alchemist.",
      "Explain the concept of a chemical reaction.",
      "Can you explain what a catalyst is?",
      "A chemical reaction transforms substances.", true⟩ (by decide)⟩

/-- C3. No partial writes: for every turn that fails (in particular any
failure during the Generating or Evaluating phase), the stored context
state after the failed attempt is identical to before the attempt — no
message appended, turnCount unchanged, goalAchieved unchanged — so
resending the same request is safe. -/
theorem c3_no_partial_writes (env : Env) (now : Nat) (store store2 : Store)
    (req : TurnRequest) (e : TurnFailure)
    (h : TurnEngine.playTurn env now store req = (.error e, store2)) :
    store2 = store :=
  playTurn_error h

/-- Witness for C3 at a concrete generation failure (all providers
exhausted) over a non-empty store. -/
theorem c3_no_partial_writes_witness :
    TurnEngine.playTurn downEnv 0 busyStore sampleReq =
      (.error (.generationFailed .allProvidersExhausted), busyStore) ∧
    busyStore = busyStore :=
  ⟨by decide,
   c3_no_partial_writes downEnv 0 busyStore busyStore sampleReq
     (.generationFailed .allProvidersExhausted) (by decide)⟩

/-- C7. Input validation precedes generation: a request whose user message
is blank after trimming fails with InvalidInput, and a request whose card
id does not match the context already bound to its conversation key fails
with ContextCardMismatch; in both cases the store is unchanged and the
tried-provider trace is empty — no adapter was invoked. -/
theorem c7_validation_precedes_generation (env : Env) (now : Nat)
    (store : Store) (req : TurnRequest) :
    (trimStr req.userMessage = "" →
      TurnEngine.playTurnRun env now store req =
        ⟨.error .invalidInput, store, []⟩) ∧
    (∀ c, trimStr req.userMessage ≠ "" →
      store.get req.conversationKey = some c → c.cardId ≠ req.card.id →
      TurnEngine.playTurnRun env now store req =
        ⟨.error .contextCardMismatch, store, []⟩) := by
  constructor
  · intro hmt
    unfold TurnEngine.playTurnRun validate
    simp [hmt]
  · intro c hmt hget hcard
    unfold TurnEngine.playTurnRun validate
    simp [hmt, hget, hcard]

/-- C4. AdapterRegistry failover policy: a non-retryable failure from any
adapter propagates immediately without trying any later adapter (the tried
trace stops at that adapter and the outcome ignores the rest of the list);
a retryable-class failure from adapter i causes adapter i+1 to be tried;
and the registry fails with AllProvidersExhausted if and only if every
registered adapter fails with a retryable-class error. -/
theorem c4_registry_failover (sys : String) (hist : List Message) (u : String) :
    (∀ (a : ProviderAdapter) (rest : List ProviderAdapter) (e : AdapterFailure),
      a.complete sys hist u = .error e → retryableClass e = false →
      AdapterRegistry.run (a :: rest) sys hist u =
        ([a.providerId], .error (.adapterFailure e))) ∧
    (∀ (a : ProviderAdapter) (rest : List ProviderAdapter) (e : AdapterFailure),
      a.complete sys hist u = .error e → retryableClass e = true →
      AdapterRegistry.run (a :: rest) sys hist u =
        (a.providerId :: (AdapterRegistry.run rest sys hist u).1,
         (AdapterRegistry.run rest sys hist u).2)) ∧
    (∀ as : List ProviderAdapter,
      AdapterRegistry.complete as sys hist u = .error .allProvidersExhausted ↔
      ∀ a ∈ as, ∃ e, a.complete sys hist u = .error e ∧
        retryableClass e = true) := by
  refine ⟨?_, ?_, ?_⟩
  · intro a rest e h hnr
    rw [AdapterRegistry.run, h]
    simp [hnr]
  · intro a rest e h hr
    rw [AdapterRegistry.run, h]
    simp [hr]
  · intro as
    induction as with
    | nil => simp [AdapterRegistry.complete, AdapterRegistry.run]
    | cons a rest ih =>
        cases hc : a.complete sys hist u with
        | ok r =>
            have hrun : AdapterRegistry.complete (a :: rest) sys hist u =
                .ok r := by
              unfold AdapterRegistry.complete
              rw [AdapterRegistry.run, hc]
            rw [hrun]
            constructor
            · intro hL
              exact absurd hL (by simp)
            · intro hR
              obtain ⟨e, he, -⟩ := hR a (List.mem_cons_self _ _)
              rw [hc] at he
              exact absurd he (by simp)
        | error e =>
            by_cases hre : retryableClass e = true
            · have hstep : AdapterRegistry.complete (a :: rest) sys hist u =
                  AdapterRegistry.complete rest sys hist u := by
                unfold AdapterRegistry.complete
                rw [AdapterRegistry.run, hc]
                simp [hre]
              rw [hstep, List.forall_mem_cons, ih]
              constructor
              · intro hL
                exact ⟨⟨e, hc, hre⟩, hL⟩
              · intro hR
                exact hR.2
            · have hrun : AdapterRegistry.complete (a :: rest) sys hist u =
                  .error (.adapterFailure e) := by
                unfold AdapterRegistry.complete
                rw [AdapterRegistry.run, hc]
                simp [hre]
              rw [hrun]
              constructor
              · intro hL
                exact absurd hL (by simp)
              · intro hR
                obtain ⟨e2, he2, hre2⟩ := hR a (List.mem_cons_self _ _)
                rw [hc] at he2
                obtain rfl := Except.error.inj he2
                exact absurd hre2 hre

/-- Witness for C4: a non-retryable adapter stops the registry without
trying the next adapter; a transport-failing adapter makes it fail over;
the exhaustion equivalence at a one-adapter registry. -/
theorem c4_registry_failover_witness :
    (rejectAdapter.complete "s" [] "u" = .error .nonRetryable ∧
     retryableClass .nonRetryable = false ∧
     AdapterRegistry.run [rejectAdapter, okAdapter] "s" [] "u" =
       (["strict"], .error (.adapterFailure .nonRetryable))) ∧
    (transportAdapter.complete "s" [] "u" = .error .transport ∧
     retryableClass .transport = true ∧
     AdapterRegistry.run [transportAdapter, okAdapter] "s" [] "u" =
       ("flaky" :: (AdapterRegistry.run [okAdapter] "s" [] "u").1,
        (AdapterRegistry.run [okAdapter] "s" [] "u").2)) ∧
    (AdapterRegistry.complete [transportAdapter] "s" [] "u" =
       .error .allProvidersExhausted ↔
     ∀ a ∈ [transportAdapter], ∃ e, a.complete "s" [] "u" = .error e ∧
       retryableClass e = true) :=
  ⟨⟨by decide, by decide,
    (c4_registry_failover "s" [] "u").1 rejectAdapter [okAdapter]
      .nonRetryable (by decide) (by decide)⟩,
   ⟨by decide, by decide,
    (c4_registry_failover "s" [] "u").2.1 transportAdapter [okAdapter]
      .transport (by decide) (by decide)⟩,
   (c4_registry_failover "s" [] "u").2.2 [transportAdapter]⟩

/-- Helper: a single adapter attempt never returns an empty text. -/
lemma adapterAttempt_ok_text {a : ProviderAdapter} {sys : String}
    {hist : List Message} {u : String} {n : Nat} {r : AdapterResult}
    (h : adapterAttempt a sys hist u n = .ok r) : ¬ r.text = "" := by
  unfold adapterAttempt at h
  split at h
  · exact absurd h (by simp)
  · rename_i raw hraw
    dsimp only at h
    split at h
    · exact absurd h (by simp)
    · rename_i htrim
      obtain rfl := Except.ok.inj h
      exact htrim

/-- Helper: the retry loop never returns an empty text. -/
lemma completeFrom_ok_text {a : ProviderAdapter} {sys : String}
    {hist : List Message} {u : String} :
    ∀ fuel attempt r, completeFrom a sys hist u attempt fuel = .ok r →
      ¬ r.text = "" := by
  intro fuel
  induction fuel with
  | zero =>
      intro attempt r h
      exact adapterAttempt_ok_text (h : adapterAttempt a sys hist u attempt = .ok r)
  | succ n ih =>
      intro attempt r h
      unfold completeFrom at h
      split at h
      · split at h
        · exact ih (attempt + 1) r h
        · exact absurd h (by simp)
      · rename_i r2 hat
        obtain rfl := Except.ok.inj h
        exact adapterAttempt_ok_text hat

/-- C5. ProviderAdapter never returns blank text: if the backend's content
is empty after normalization, the adapter fails with EmptyResponse; and it
never returns an AdapterResult whose text is empty. -/
theorem c5_no_blank_text (a : ProviderAdapter) (sys : String)
    (hist : List Message) (u : String) :
    (∀ raw, a.backend sys hist u 0 = .ok raw → trimStr raw = "" →
      a.complete sys hist u = .error .emptyResponse) ∧
    (∀ r, a.complete sys hist u = .ok r → ¬ r.text = "") := by
  constructor
  · intro raw hraw htrim
    unfold ProviderAdapter.complete
    show completeFrom a sys hist u 0 2 = .error .emptyResponse
    simp [completeFrom, adapterAttempt, hraw, htrim, transientClass]
  · intro r h
    exact completeFrom_ok_text (maxAttempts - 1) 0 r h

/-- Witness for C5: the whitespace-only backend fails with EmptyResponse,
and a successful adapter's returned text is non-empty. -/
theorem c5_no_blank_text_witness :
    (blankAdapter.backend "s" [] "u" 0 = .ok "   " ∧ trimStr "   " = "" ∧
     blankAdapter.complete "s" [] "u" = .error .emptyResponse) ∧
    (okAdapter.complete "s" [] "u" =
       .ok ⟨"A chemical reaction transforms substances.", "gemini"⟩ ∧
     ¬ (⟨"A chemical reaction transforms substances.", "gemini"⟩ :
        AdapterResult).text = "") :=
  ⟨⟨by decide, by decide,
    (c5_no_blank_text blankAdapter "s" [] "u").1 "   " (by decide) (by decide)⟩,
   ⟨by decide,
    (c5_no_blank_text okAdapter "s" [] "u").2
      ⟨"A chemical reaction transforms substances.", "gemini"⟩ (by decide)⟩⟩

/-- Helper: the heuristic evaluator yields false when no goal keyword
occurs in the response. -/
lemma heuristicEval_false {goal r : String}
    (hkw : ∀ w ∈ goalKeywords goal, containsStr (lowerStr r) w = false) :
    heuristicEval goal r = false := by
  unfold heuristicEval
  rw [List.any_eq_false]
  intro w hw
  simp [hkw w hw]

/-- Helper: the latest assistant message of a history ending in an
assistant message is that message. -/
lemma latestAssistantText_append (hist : List Message) (u a : Message)
    (ha : a.role = .assistant) :
    latestAssistantText (hist ++ [u, a]) = a.text := by
  unfold latestAssistantText
  simp [List.find?, ha]

/-- C6. Evaluator failure is never propagated: for a turn whose goal flag is
not yet set and whose model-assisted secondary judgment call fails, the
turn still completes successfully and reports is_goal_achieved = false, and
no evaluator error is raised to the caller. -/
theorem c6_evaluator_failure_degrades (env : Env)
    (judge : String → List Message → Except AdapterFailure Bool)
    (now : Nat) (store : Store) (req : TurnRequest)
    (ctx : ConversationContext) (res : AdapterResult) (tried : List String)
    (err : AdapterFailure)
    (henv : env.evaluator = .modelAssisted judge)
    (hval : validate store req = .ok ctx)
    (hflag : ctx.goalAchieved = false)
    (hgen : AdapterRegistry.run env.adapters req.card.description ctx.history
      req.userMessage = (tried, .ok res))
    (hjudge : judge req.card.goal (ctx.history ++
      [⟨.user, req.userMessage, now⟩, ⟨.assistant, res.text, now⟩]) =
      .error err) :
    TurnEngine.playTurn env now store req =
      (.ok ⟨req.card.id, req.card.description, req.card.goal, req.userMessage,
        res.text, false⟩,
       store.upsert req.conversationKey
         ⟨ctx.cardId, ctx.history ++
           [⟨.user, req.userMessage, now⟩, ⟨.assistant, res.text, now⟩],
          false, ctx.turnCount + 1⟩) := by
  unfold TurnEngine.playTurn TurnEngine.playTurnRun
  rw [hval]
  dsimp only
  unfold turnCompute
  rw [hgen]
  dsimp only
  simp [GoalEvaluator.evaluate, henv, hjudge, hflag]

/-- Witness for C6 at a concrete turn whose secondary judgment call always
fails: the turn completes with is_goal_achieved = false. -/
theorem c6_evaluator_failure_degrades_witness :
    failingJudgeEnv.evaluator =
      .modelAssisted (fun _ _ => .error .timeout) ∧
    validate [] sampleReq = .ok (freshContext "42") ∧
    (freshContext "42").goalAchieved = false ∧
    TurnEngine.playTurn failingJudgeEnv 0 [] sampleReq =
      (.ok ⟨"42", "A grumpy but brilliant medieval alchemist.",
        "Explain the concept of a chemical reaction.",
        "Can you explain what a catalyst is?",
        "Hmph. Ask me tomorrow.", false⟩,
       Store.upsert ([] : Store) sampleReq.conversationKey
         ⟨(freshContext "42").cardId, (freshContext "42").history ++
           [⟨.user, sampleReq.userMessage, 0⟩,
            ⟨.assistant, "Hmph. Ask me tomorrow.", 0⟩],
          false, (freshContext "42").turnCount + 1⟩) :=
  ⟨rfl, by decide, by decide,
   c6_evaluator_failure_degrades failingJudgeEnv
     (fun _ _ => .error .timeout) 0 [] sampleReq (freshContext "42")
     ⟨"Hmph. Ask me tomorrow.", "gemini"⟩ ["gemini"] .timeout
     rfl (by decide) (by decide) (by decide) rfl⟩

/-- C8. First-turn postcondition: on a fresh conversation key with the
heuristic evaluator, when the generated response contains none of the
goal-derived keywords, the turn returns is_goal_achieved = false, and the
stored context afterwards has turnCount = 1 and a history of exactly one
user message followed by one assistant message. -/
theorem c8_first_turn_postcondition (env : Env) (now : Nat) (store : Store)
    (req : TurnRequest) (res : AdapterResult) (tried : List String)
    (henv : env.evaluator = .heuristic)
    (hfresh : store.get req.conversationKey = none)
    (hmsg : ¬ trimStr req.userMessage = "")
    (hgen : AdapterRegistry.run env.adapters req.card.description []
      req.userMessage = (tried, .ok res))
    (hkw : ∀ w ∈ goalKeywords req.card.goal,
      containsStr (lowerStr res.text) w = false) :
    TurnEngine.playTurn env now store req =
      (.ok ⟨req.card.id, req.card.description, req.card.goal, req.userMessage,
        res.text, false⟩,
       store.upsert req.conversationKey
         ⟨req.card.id,
          [⟨.user, req.userMessage, now⟩, ⟨.assistant, res.text, now⟩],
          false, 1⟩) ∧
    (store.upsert req.conversationKey
       ⟨req.card.id,
        [⟨.user, req.userMessage, now⟩, ⟨.assistant, res.text, now⟩],
        false, 1⟩).get req.conversationKey =
      some ⟨req.card.id,
        [⟨.user, req.userMessage, now⟩, ⟨.assistant, res.text, now⟩],
        false, 1⟩ := by
  have hval : validate store req = .ok (freshContext req.card.id) := by
    unfold validate
    rw [hfresh]
    simp [hmsg]
  constructor
  · unfold TurnEngine.playTurn TurnEngine.playTurnRun
    rw [hval]
    dsimp only
    unfold turnCompute
    dsimp only [freshContext]
    rw [hgen]
    dsimp only
    have heval : GoalEvaluator.evaluate .heuristic req.card.goal
        ([] ++ [⟨.user, req.userMessage, now⟩,
          ⟨.assistant, res.text, now⟩]) = false := by
      unfold GoalEvaluator.evaluate
      rw [latestAssistantText_append [] _ _ rfl]
      exact heuristicEval_false hkw
    simp only [List.nil_append] at heval
    simp [henv, heval]
  · exact get_upsert_same store req.conversationKey _

/-- Witness for C8: the documented first-turn scenario — fresh key,
heuristic evaluator, response lacking all goal keywords — yields
is_goal_achieved = false, turnCount = 1 and a two-message history. -/
theorem c8_first_turn_postcondition_witness :
    (⟨[dullAdapter], .heuristic⟩ : Env).evaluator = .heuristic ∧
    Store.get ([] : Store) sampleReq.conversationKey = none ∧
    ¬ trimStr sampleReq.userMessage = "" ∧
    (∀ w ∈ goalKeywords sampleReq.card.goal,
      containsStr (lowerStr "Hmph. Ask me tomorrow.") w = false) ∧
    (TurnEngine.playTurn ⟨[dullAdapter], .heuristic⟩ 0 [] sampleReq =
      (.ok ⟨"42", "A grumpy but brilliant medieval alchemist.",
        "Explain the concept of a chemical reaction.",
        "Can you explain what a catalyst is?",
        "Hmph. Ask me tomorrow.", false⟩,
       Store.upsert ([] : Store) sampleReq.conversationKey
         ⟨"42", [⟨.user, sampleReq.userMessage, 0⟩,
           ⟨.assistant, "Hmph. Ask me tomorrow.", 0⟩], false, 1⟩) ∧
     Store.get
       (Store.upsert ([] : Store) sampleReq.conversationKey
        ⟨"42", [⟨.user, sampleReq.userMessage, 0⟩,
          ⟨.assistant, "Hmph. Ask me tomorrow.", 0⟩], false, 1⟩)
        sampleReq.conversationKey =
       some ⟨"42", [⟨.user, sampleReq.userMessage, 0⟩,
         ⟨.assistant, "Hmph. Ask me tomorrow.", 0⟩], false, 1⟩) :=
  ⟨rfl, by decide, by decide, by decide,
   c8_first_turn_postcondition ⟨[dullAdapter], .heuristic⟩ 0 [] sampleReq
     ⟨"Hmph. Ask me tomorrow.", "gemini"⟩ ["gemini"]
     rfl (by decide) (by decide) (by decide) (by decide)⟩

/-- Witness for C7: a blank message is rejected with InvalidInput and a
mismatched card id with ContextCardMismatch, both with no adapter tried. -/
theorem c7_validation_precedes_generation_witness :
    (trimStr emptyMsgReq.userMessage = "" ∧
     TurnEngine.playTurnRun downEnv 0 busyStore emptyMsgReq =
       ⟨.error .invalidInput, busyStore, []⟩) ∧
    (trimStr mismatchReq.userMessage ≠ "" ∧
     TurnEngine.playTurnRun downEnv 0 busyStore mismatchReq =
       ⟨.error .contextCardMismatch, busyStore, []⟩) :=
  ⟨⟨by decide,
    (c7_validation_precedes_generation downEnv 0 busyStore emptyMsgReq).1
      (by decide)⟩,
   ⟨by decide,
    (c7_validation_precedes_generation downEnv 0 busyStore mismatchReq).2
      ⟨"42", [⟨.user, "hi", 0⟩, ⟨.assistant, "yo", 0⟩], false, 1⟩
      (by decide) (by decide) (by decide)⟩⟩

/-- Helper: a successful turn stores exactly the goal flag it reports. -/
lemma playTurn_ok_flag {env : Env} {now : Nat} {store store2 : Store}
    {req : TurnRequest} {r : TurnResult}
    (h : TurnEngine.playTurn env now store req = (.ok r, store2)) :
    goalFlagAt store2 req.conversationKey = r.isGoalAchieved := by
  obtain ⟨ctx, c, tried, hv, hc, hs⟩ := playTurn_ok h
  obtain ⟨h1, -⟩ := turnCompute_ok hc
  rw [hs]
  unfold goalFlagAt
  rw [get_upsert_same]
  exact h1

/-- Helper: a successful turn on a key whose stored flag is already true
reports true. -/
lemma playTurn_flag_true {env : Env} {now : Nat} {store store2 : Store}
    {req : TurnRequest} {r : TurnResult}
    (hf : goalFlagAt store req.conversationKey = true)
    (h : TurnEngine.playTurn env now store req = (.ok r, store2)) :
    r.isGoalAchieved = true := by
  obtain ⟨ctx, c, tried, hv, hc, hs⟩ := playTurn_ok h
  obtain ⟨-, h2, -⟩ := turnCompute_ok hc
  unfold goalFlagAt at hf
  cases hget : store.get req.conversationKey with
  | none => rw [hget] at hf; exact absurd hf (by simp)
  | some cc =>
      rw [hget] at hf
      obtain rfl := validate_ok_of_some hget hv
      exact h2 hf

/-- Helper: one turn (successful or not) never turns a stored goal flag
from true back to false, at any key. -/
lemma playTurn_mono {env : Env} {now : Nat} {store store2 : Store}
    {req : TurnRequest} {res : Except TurnFailure TurnResult} {k : String}
    (h : TurnEngine.playTurn env now store req = (res, store2))
    (hf : goalFlagAt store k = true) : goalFlagAt store2 k = true := by
  cases res with
  | error e => rw [playTurn_error h]; exact hf
  | ok r =>
      by_cases hk : k = req.conversationKey
      · subst hk
        rw [playTurn_ok_flag h]
        exact playTurn_flag_true hf h
      · obtain ⟨ctx, c, tried, hv, hc, hs⟩ := playTurn_ok h
        rw [hs]
        unfold goalFlagAt
        rw [get_upsert_ne _ _ _ _ hk]
        exact hf

/-- Helper: unfolding one step of `runTurns`. -/
lemma runTurns_cons (env : Env) (now : Nat) (store : Store)
    (req : TurnRequest) (rs : List TurnRequest) :
    TurnEngine.runTurns env now store (req :: rs) =
      ((TurnEngine.playTurn env now store req).1 ::
        (TurnEngine.runTurns env now
          (TurnEngine.playTurn env now store req).2 rs).1,
       (TurnEngine.runTurns env now
          (TurnEngine.playTurn env now store req).2 rs).2) := rfl

/-- Helper: a run of turns never turns a stored goal flag from true back to
false. -/
lemma runTurns_mono {env : Env} {now : Nat} {k : String} :
    ∀ (reqs : List TurnRequest) (store : Store),
      goalFlagAt store k = true →
      goalFlagAt (TurnEngine.runTurns env now store reqs).2 k = true := by
  intro reqs
  induction reqs with
  | nil => intro store hf; exact hf
  | cons req rs ih =>
      intro store hf
      rw [runTurns_cons]
      exact ih _ (playTurn_mono Prod.mk.eta.symm hf)

/-- Helper: once the stored flag for the shared key is true, every later
successful turn of a same-key run reports true. -/
lemma runTurns_all_true {env : Env} {now : Nat} {k : String} :
    ∀ (reqs : List TurnRequest) (store : Store),
      (∀ r ∈ reqs, r.conversationKey = k) →
      goalFlagAt store k = true →
      ∀ (j : Nat) (r2 : TurnResult),
        (TurnEngine.runTurns env now store reqs).1[j]? =
        some (Except.ok r2) → r2.isGoalAchieved = true := by
  intro reqs
  induction reqs with
  | nil =>
      intro store hk hf j r2 hj
      simp [TurnEngine.runTurns] at hj
  | cons req rs ih =>
      intro store hk hf j r2 hj
      rw [runTurns_cons] at hj
      cases j with
      | zero =>
          simp only [List.getElem?_cons_zero, Option.some.injEq] at hj
          have hkey := hk req (List.mem_cons_self _ _)
          refine playTurn_flag_true ?_ (show TurnEngine.playTurn env now store req =
            (.ok r2, (TurnEngine.playTurn env now store req).2) from ?_)
          · rw [hkey]; exact hf
          · rw [← hj]
      | succ j2 =>
          simp only [List.getElem?_cons_succ] at hj
          exact ih _ (fun r hr => hk r (List.mem_cons_of_mem _ hr))
            (playTurn_mono Prod.mk.eta.symm hf) j2 r2 hj

/-- Helper: in a same-key run, once result i reports true, every later
result reports true. -/
lemma runTurns_once_true {env : Env} {now : Nat} {k : String} :
    ∀ (reqs : List TurnRequest) (store : Store),
      (∀ r ∈ reqs, r.conversationKey = k) →
      ∀ (i j : Nat) (r r2 : TurnResult), i < j →
        (TurnEngine.runTurns env now store reqs).1[i]? = some (Except.ok r) →
        r.isGoalAchieved = true →
        (TurnEngine.runTurns env now store reqs).1[j]? = some (Except.ok r2) →
        r2.isGoalAchieved = true := by
  intro reqs
  induction reqs with
  | nil =>
      intro store hk i j r r2 hij hi hr hj
      simp [TurnEngine.runTurns] at hi
  | cons req rs ih =>
      intro store hk i j r r2 hij hi hr hj
      rw [runTurns_cons] at hi hj
      cases i with
      | zero =>
          obtain ⟨j2, rfl⟩ : ∃ j2, j = j2 + 1 :=
            ⟨j - 1, by omega⟩
          simp only [List.getElem?_cons_zero, Option.some.injEq] at hi
          simp only [List.getElem?_cons_succ] at hj
          have hkey := hk req (List.mem_cons_self _ _)
          have hflag : goalFlagAt (TurnEngine.playTurn env now store req).2 k
              = true := by
            rw [← hkey]
            rw [playTurn_ok_flag (show TurnEngine.playTurn env now store req =
              (.ok r, (TurnEngine.playTurn env now store req).2) from by
                rw [← hi])]
            exact hr
          exact runTurns_all_true rs _
            (fun q hq => hk q (List.mem_cons_of_mem _ hq)) hflag j2 r2 hj
      | succ i2 =>
          obtain ⟨j2, rfl⟩ : ∃ j2, j = j2 + 1 :=
            ⟨j - 1, by omega⟩
          simp only [List.getElem?_cons_succ] at hi hj
          exact ih _ (fun q hq => hk q (List.mem_cons_of_mem _ hq))
            i2 j2 r r2 (by omega) hi hr hj

/-- C1. Monotonic goal flag: along any sequence of turns against one
conversation key, the stored goalAchieved flag never reverts from true to
false, and once a turn's response reports is_goal_achieved = true, every
subsequent successful response for that key also reports true. -/
theorem c1_monotonic_goal_flag (env : Env) (now : Nat) (k : String)
    (reqs : List TurnRequest)
    (hkeys : ∀ r ∈ reqs, r.conversationKey = k) (store : Store) :
    (goalFlagAt store k = true →
      goalFlagAt (TurnEngine.runTurns env now store reqs).2 k = true) ∧
    (∀ (i j : Nat) (r r2 : TurnResult), i < j →
      (TurnEngine.runTurns env now store reqs).1[i]? = some (Except.ok r) →
      r.isGoalAchieved = true →
      (TurnEngine.runTurns env now store reqs).1[j]? = some (Except.ok r2) →
      r2.isGoalAchieved = true) :=
  ⟨fun hf => runTurns_mono reqs store hf,
   fun i j r r2 hij hi hr hj =>
     runTurns_once_true reqs store hkeys i j r r2 hij hi hr hj⟩

/-- Witness for C1: a pre-achieved store keeps its flag across a two-turn
run, and on a fresh store a first turn reporting true forces the second
turn's response to be true. -/
theorem c1_monotonic_goal_flag_witness :
    (∀ r ∈ [sampleReq, sampleReq], r.conversationKey = "k1") ∧
    (goalFlagAt achievedStore "k1" = true ∧
     goalFlagAt
       (TurnEngine.runTurns heuristicEnv 0 achievedStore
         [sampleReq, sampleReq]).2 "k1" = true) ∧
    ((0 : Nat) < 1 ∧
     (TurnEngine.runTurns heuristicEnv 0 []
        [sampleReq, sampleReq]).1[(0 : Nat)]? =
       some (.ok ⟨"42", "A grumpy but brilliant medieval alchemist.",
         "Explain the concept of a chemical reaction.",
         "Can you explain what a catalyst is?",
         "A chemical reaction transforms substances.", true⟩) ∧
     (⟨"42", "A grumpy but brilliant medieval alchemist.",
        "Explain the concept of a chemical reaction.",
        "Can you explain what a catalyst is?",
        "A chemical reaction transforms substances.", true⟩ :
       TurnResult).isGoalAchieved = true ∧
     (TurnEngine.runTurns heuristicEnv 0 []
        [sampleReq, sampleReq]).1[(1 : Nat)]? =
       some (.ok ⟨"42", "A grumpy but brilliant medieval alchemist.",
         "Explain the concept of a chemical reaction.",
         "Can you explain what a catalyst is?",
         "A chemical reaction transforms substances.", true⟩) ∧
     (⟨"42", "A grumpy but brilliant medieval alchemist.",
        "Explain the concept of a chemical reaction.",
        "Can you explain what a catalyst is?",
        "A chemical reaction transforms substances.", true⟩ :
       TurnResult).isGoalAchieved = true) :=
  ⟨by decide,
   ⟨by decide,
    (c1_monotonic_goal_flag heuristicEnv 0 "k1" [sampleReq, sampleReq]
      (by decide) achievedStore).1 (by decide)⟩,
   ⟨by decide, by decide, by decide, by decide,
    (c1_monotonic_goal_flag heuristicEnv 0 "k1" [sampleReq, sampleReq]
      (by decide) []).2 0 1
      ⟨"42", "A grumpy but brilliant medieval alchemist.",
       "Explain the concept of a chemical reaction.",
       "Can you explain what a catalyst is?",
       "A chemical reaction transforms substances.", true⟩
      ⟨"42", "A grumpy but brilliant medieval alchemist.",
       "Explain the concept of a chemical reaction.",
       "Can you explain what a catalyst is?",
       "A chemical reaction transforms substances.", true⟩
      (by decide) (by decide) (by decide) (by decide)⟩⟩

/-- Helper: an interleaving with an empty left list is the right list. -/
lemma interleaves_nil_left : ∀ (ys zs : List Ev),
    Interleaves [] ys zs → zs = ys := by
  intro ys zs
  induction zs generalizing ys with
  | nil => intro h; cases h; rfl
  | cons z zs ih =>
      intro h
      cases h with
      | right h2 => rename_i ys2; rw [ih ys2 h2]

/-- Helper: an interleaving with an empty right list is the left list. -/
lemma interleaves_nil_right : ∀ (xs zs : List Ev),
    Interleaves xs [] zs → zs = xs := by
  intro xs zs
  induction zs generalizing xs with
  | nil => intro h; cases h; rfl
  | cons z zs ih =>
      intro h
      cases h with
      | left h2 => rename_i xs2; rw [ih xs2 h2]

/-- Helper: the six interleavings of two two-event sequences. -/
lemma interleaves_two_two {a b c d : Ev} {s : List Ev}
    (h : Interleaves [a, b] [c, d] s) :
    s = [a, b, c, d] ∨ s = [a, c, b, d] ∨ s = [a, c, d, b] ∨
    s = [c, a, b, d] ∨ s = [c, a, d, b] ∨ s = [c, d, a, b] := by
  cases h with
  | left h1 =>
      cases h1 with
      | left h2 =>
          rw [interleaves_nil_left _ _ h2]
          simp
      | right h2 =>
          cases h2 with
          | left h3 =>
              rw [interleaves_nil_left _ _ h3]
              simp
          | right h3 =>
              rw [interleaves_nil_right _ _ h3]
              simp
  | right h1 =>
      cases h1 with
      | left h2 =>
          cases h2 with
          | left h3 =>
              rw [interleaves_nil_left _ _ h3]
              simp
          | right h3 =>
              rw [interleaves_nil_right _ _ h3]
              simp
      | right h2 =>
          rw [interleaves_nil_right _ _ h2]
          simp

/-- Helper: a lock-respecting schedule of two turns is one of the two
serial schedules — the turns do not run concurrently. -/
lemma lockRespecting_serial {s : List Ev}
    (hint : Interleaves (turnEvents .first) (turnEvents .second) s)
    (hlock : lockRespecting s = true) :
    s = turnEvents .first ++ turnEvents .second ∨
    s = turnEvents .second ++ turnEvents .first := by
  have hint2 : Interleaves [⟨.first, .read⟩, ⟨.first, .write⟩]
      [⟨.second, .read⟩, ⟨.second, .write⟩] s := hint
  rcases interleaves_two_two hint2 with rfl | rfl | rfl | rfl | rfl | rfl
  · exact Or.inl rfl
  · exact absurd hlock (by decide)
  · exact absurd hlock (by decide)
  · exact absurd hlock (by decide)
  · exact absurd hlock (by decide)
  · exact Or.inr rfl

/-- Helper: the first turn's adjacent read/write events act exactly like
`playTurn` on the current store. -/
lemma pairStep_firstTurn (env : Env) (now : Nat) (req1 req2 : TurnRequest)
    (st : PairState) :
    pairStep env now req1 req2
      (pairStep env now req1 req2 st ⟨.first, .read⟩) ⟨.first, .write⟩ =
      { st with store := (TurnEngine.playTurn env now st.store req1).2,
                read1 := some (validate st.store req1),
                out1 := some (TurnEngine.playTurn env now st.store req1).1 } := by
  unfold pairStep writePhase TurnEngine.playTurn TurnEngine.playTurnRun
  cases hv : validate st.store req1 with
  | error e => simp [hv]
  | ok ctx =>
      cases hc : turnCompute env now req1 ctx with
      | mk tried res =>
          cases res with
          | error e => simp [hv, hc]
          | ok rc =>
              cases rc with
              | mk r c => simp [hv, hc]

/-- Helper: the second turn's adjacent read/write events act exactly like
`playTurn` on the current store. -/
lemma pairStep_secondTurn (env : Env) (now : Nat) (req1 req2 : TurnRequest)
    (st : PairState) :
    pairStep env now req1 req2
      (pairStep env now req1 req2 st ⟨.second, .read⟩) ⟨.second, .write⟩ =
      { st with store := (TurnEngine.playTurn env now st.store req2).2,
                read2 := some (validate st.store req2),
                out2 := some (TurnEngine.playTurn env now st.store req2).1 } := by
  unfold pairStep writePhase TurnEngine.playTurn TurnEngine.playTurnRun
  cases hv : validate st.store req2 with
  | error e => simp [hv]
  | ok ctx =>
      cases hc : turnCompute env now req2 ctx with
      | mk tried res =>
          cases res with
          | error e => simp [hv, hc]
          | ok rc =>
              cases rc with
              | mk r c => simp [hv, hc]

/-- Helper: the first-then-second serial schedule is the sequential
composition of the two turns. -/
lemma execPair_serial_first (env : Env) (now : Nat) (store : Store)
    (req1 req2 : TurnRequest) :
    execPair env now store req1 req2
      (turnEvents .first ++ turnEvents .second) =
      ⟨(TurnEngine.playTurn env now
          (TurnEngine.playTurn env now store req1).2 req2).2,
       some (validate store req1),
       some (validate (TurnEngine.playTurn env now store req1).2 req2),
       some (TurnEngine.playTurn env now store req1).1,
       some (TurnEngine.playTurn env now
          (TurnEngine.playTurn env now store req1).2 req2).1⟩ := by
  show pairStep env now req1 req2 (pairStep env now req1 req2
    (pairStep env now req1 req2 (pairStep env now req1 req2
      ⟨store, none, none, none, none⟩ ⟨.first, .read⟩) ⟨.first, .write⟩)
      ⟨.second, .read⟩) ⟨.second, .write⟩ = _
  rw [pairStep_firstTurn, pairStep_secondTurn]

/-- Helper: the second-then-first serial schedule is the sequential
composition of the two turns. -/
lemma execPair_serial_second (env : Env) (now : Nat) (store : Store)
    (req1 req2 : TurnRequest) :
    execPair env now store req1 req2
      (turnEvents .second ++ turnEvents .first) =
      ⟨(TurnEngine.playTurn env now
          (TurnEngine.playTurn env now store req2).2 req1).2,
       some (validate (TurnEngine.playTurn env now store req2).2 req1),
       some (validate store req2),
       some (TurnEngine.playTurn env now
          (TurnEngine.playTurn env now store req2).2 req1).1,
       some (TurnEngine.playTurn env now store req2).1⟩ := by
  show pairStep env now req1 req2 (pairStep env now req1 req2
    (pairStep env now req1 req2 (pairStep env now req1 req2
      ⟨store, none, none, none, none⟩ ⟨.second, .read⟩) ⟨.second, .write⟩)
      ⟨.first, .read⟩) ⟨.first, .write⟩ = _
  rw [pairStep_secondTurn, pairStep_firstTurn]

/-- Helper: two successful sequential turns on one key leave a stored
history containing both user messages. -/
lemma seq_both_messages {env : Env} {now : Nat} {store storeA storeB : Store}
    {reqA reqB : TurnRequest} {k : String} {rA rB : TurnResult}
    (hkA : reqA.conversationKey = k) (hkB : reqB.conversationKey = k)
    (hA : TurnEngine.playTurn env now store reqA = (.ok rA, storeA))
    (hB : TurnEngine.playTurn env now storeA reqB = (.ok rB, storeB)) :
    ∃ ctx, storeB.get k = some ctx ∧
      (⟨.user, reqA.userMessage, now⟩ : Message) ∈ ctx.history ∧
      (⟨.user, reqB.userMessage, now⟩ : Message) ∈ ctx.history := by
  obtain ⟨ctxA, cA, tA, hvA, hcA, hsA⟩ := playTurn_ok hA
  obtain ⟨ctxB, cB, tB, hvB, hcB, hsB⟩ := playTurn_ok hB
  obtain ⟨-, -, hhA, -⟩ := turnCompute_ok hcA
  obtain ⟨-, -, hhB, -⟩ := turnCompute_ok hcB
  have hgA : storeA.get k = some cA := by
    rw [hsA, ← hkA]
    exact get_upsert_same store reqA.conversationKey cA
  have hctxB : ctxB = cA := by
    refine validate_ok_of_some ?_ hvB
    rw [hkB]
    exact hgA
  refine ⟨cB, ?_, ?_, ?_⟩
  · rw [hsB, ← hkB]
    exact get_upsert_same storeA reqB.conversationKey cB
  · rw [hhB, hctxB, hhA]
    simp
  · rw [hhB]
    simp

/-- C9. Per-key serialization / no lost update: every schedule of two
turns on one conversation key that respects the mandated per-key critical
section is one of the two serial orders (the turns do not run
concurrently), and when both turns succeed the resulting stored history
contains both turns' appended user messages — neither append is
overwritten. -/
theorem c9_per_key_serialization (env : Env) (now : Nat) (store : Store)
    (req1 req2 : TurnRequest) (k : String) (s : List Ev) (r1 r2 : TurnResult)
    (hk1 : req1.conversationKey = k) (hk2 : req2.conversationKey = k)
    (hint : Interleaves (turnEvents .first) (turnEvents .second) s)
    (hlock : lockRespecting s = true)
    (h1 : (execPair env now store req1 req2 s).out1 = some (.ok r1))
    (h2 : (execPair env now store req1 req2 s).out2 = some (.ok r2)) :
    (s = turnEvents .first ++ turnEvents .second ∨
     s = turnEvents .second ++ turnEvents .first) ∧
    ∃ ctx, (execPair env now store req1 req2 s).store.get k = some ctx ∧
      (⟨.user, req1.userMessage, now⟩ : Message) ∈ ctx.history ∧
      (⟨.user, req2.userMessage, now⟩ : Message) ∈ ctx.history := by
  have hserial := lockRespecting_serial hint hlock
  refine ⟨hserial, ?_⟩
  rcases hserial with rfl | rfl
  · rw [execPair_serial_first] at h1 h2 ⊢
    dsimp only at h1 h2 ⊢
    have hA : TurnEngine.playTurn env now store req1 =
        (.ok r1, (TurnEngine.playTurn env now store req1).2) := by
      rw [← Option.some.inj h1]
    have hB : TurnEngine.playTurn env now
        (TurnEngine.playTurn env now store req1).2 req2 =
        (.ok r2, (TurnEngine.playTurn env now
          (TurnEngine.playTurn env now store req1).2 req2).2) := by
      rw [← Option.some.inj h2]
    exact seq_both_messages hk1 hk2 hA hB
  · rw [execPair_serial_second] at h1 h2 ⊢
    dsimp only at h1 h2 ⊢
    have hB : TurnEngine.playTurn env now store req2 =
        (.ok r2, (TurnEngine.playTurn env now store req2).2) := by
      rw [← Option.some.inj h2]
    have hA : TurnEngine.playTurn env now
        (TurnEngine.playTurn env now store req2).2 req1 =
        (.ok r1, (TurnEngine.playTurn env now
          (TurnEngine.playTurn env now store req2).2 req1).2) := by
      rw [← Option.some.inj h1]
    obtain ⟨ctx, hg, m2, m1⟩ := seq_both_messages hk2 hk1 hB hA
    exact ⟨ctx, hg, m1, m2⟩

/-- Witness for C9 at a concrete pair of turns on key "k1" under the
first-then-second serial schedule. -/
theorem c9_per_key_serialization_witness :
    sampleReq.conversationKey = "k1" ∧
    secondReq.conversationKey = "k1" ∧
    Interleaves (turnEvents .first) (turnEvents .second)
      (turnEvents .first ++ turnEvents .second) ∧
    lockRespecting (turnEvents .first ++ turnEvents .second) = true ∧
    (execPair heuristicEnv 0 [] sampleReq secondReq
      (turnEvents .first ++ turnEvents .second)).out1 =
      some (.ok ⟨"42", "A grumpy but brilliant medieval alchemist.",
        "Explain the concept of a chemical reaction.",
        "Can you explain what a catalyst is?",
        "A chemical reaction transforms substances.", true⟩) ∧
    (execPair heuristicEnv 0 [] sampleReq secondReq
      (turnEvents .first ++ turnEvents .second)).out2 =
      some (.ok ⟨"42", "A grumpy but brilliant medieval alchemist.",
        "Explain the concept of a chemical reaction.",
        "And what is an acid?",
        "A chemical reaction transforms substances.", true⟩) ∧
    ((turnEvents .first ++ turnEvents .second =
        turnEvents TurnTag.first ++ turnEvents TurnTag.second ∨
      turnEvents .first ++ turnEvents .second =
        turnEvents TurnTag.second ++ turnEvents TurnTag.first) ∧
     ∃ ctx, (execPair heuristicEnv 0 [] sampleReq secondReq
        (turnEvents .first ++ turnEvents .second)).store.get "k1" =
        some ctx ∧
       (⟨.user, sampleReq.userMessage, 0⟩ : Message) ∈ ctx.history ∧
       (⟨.user, secondReq.userMessage, 0⟩ : Message) ∈ ctx.history) :=
  ⟨rfl, rfl,
   .left (.left (.right (.right .nil))),
   by decide, by decide, by decide,
   c9_per_key_serialization heuristicEnv 0 [] sampleReq secondReq "k1"
     (turnEvents .first ++ turnEvents .second)
     ⟨"42", "A grumpy but brilliant medieval alchemist.",
      "Explain the concept of a chemical reaction.",
      "Can you explain what a catalyst is?",
      "A chemical reaction transforms substances.", true⟩
     ⟨"42", "A grumpy but brilliant medieval alchemist.",
      "Explain the concept of a chemical reaction.",
      "And what is an acid?",
      "A chemical reaction transforms substances.", true⟩
     rfl rfl (.left (.left (.right (.right .nil))))
     (by decide) (by decide) (by decide)⟩

end CardEngine

namespace ConversationUI

/-- C10. For every invocation of `handleSendMessage` whose message is
non-empty after trimming, the send button is disabled before the `fetch`
request (in trace order) and unconditionally set back to enabled in the
`finally` block — as the last effect — on success, on error, and even on a
goal-achieved turn, where `disableUserInput()` runs and the send button is
still re-enabled afterwards. -/
theorem c10_send_button_reenabled (cardId : String)
    (fetchResult : FetchOutcome) (st : UIState)
    (h : ¬ CardEngine.trimStr st.inputValue = "") :
    (handleSendMessage cardId fetchResult st).sendDisabled = false ∧
    (∃ mid, (handleSendMessage cardId fetchResult st).trace =
      st.trace ++
        [.appendMsg "user" (CardEngine.trimStr st.inputValue), .clearInput,
         .setSendDisabled true,
         .fetchCall cardId (CardEngine.trimStr st.inputValue)] ++
      mid ++ [.setSendDisabled false]) ∧
    (∀ resp, fetchResult = .success resp → resp.is_goal_achieved = true →
      (handleSendMessage cardId fetchResult st).trace =
        st.trace ++
          [.appendMsg "user" (CardEngine.trimStr st.inputValue), .clearInput,
           .setSendDisabled true,
           .fetchCall cardId (CardEngine.trimStr st.inputValue),
           .appendMsg "ai" resp.ai_response, .showBanner, .disableInput,
           .setSendDisabled false]) := by
  unfold handleSendMessage
  rw [if_neg h]
  cases fetchResult with
  | success resp =>
      by_cases hg : resp.is_goal_achieved = true
      · refine ⟨by simp [hg], ?_, ?_⟩
        · exact ⟨[.appendMsg "ai" resp.ai_response, .showBanner,
            .disableInput], by simp [hg]⟩
        · intro resp2 heq hg2
          obtain rfl : resp = resp2 := by
            injection heq
          simp [hg]
      · refine ⟨by simp [hg], ?_, ?_⟩
        · exact ⟨[.appendMsg "ai" resp.ai_response], by simp [hg]⟩
        · intro resp2 heq hg2
          obtain rfl : resp = resp2 := by
            injection heq
          exact absurd hg2 hg
  | httpError status =>
      refine ⟨by simp, ?_, ?_⟩
      · exact ⟨[.logError, .appendMsg "ai" fallbackText], by simp⟩
      · intro resp2 heq hg2
        exact absurd heq (by simp)
  | networkError =>
      refine ⟨by simp, ?_, ?_⟩
      · exact ⟨[.logError, .appendMsg "ai" fallbackText], by simp⟩
      · intro resp2 heq hg2
        exact absurd heq (by simp)

/-- Witness for C10 at a concrete goal-achieved invocation. -/
theorem c10_send_button_reenabled_witness :
    ¬ CardEngine.trimStr
        (⟨"  hello ", false, false, false, []⟩ : UIState).inputValue = "" ∧
    ((handleSendMessage "42" (.success ⟨"Done!", true⟩)
        ⟨"  hello ", false, false, false, []⟩).sendDisabled = false ∧
     (∃ mid, (handleSendMessage "42" (.success ⟨"Done!", true⟩)
        ⟨"  hello ", false, false, false, []⟩).trace =
       ([] : List UIEvent) ++
         [.appendMsg "user" (CardEngine.trimStr "  hello "), .clearInput,
          .setSendDisabled true,
          .fetchCall "42" (CardEngine.trimStr "  hello ")] ++
       mid ++ [.setSendDisabled false]) ∧
     (∀ resp, (.success ⟨"Done!", true⟩ : FetchOutcome) = .success resp →
       resp.is_goal_achieved = true →
       (handleSendMessage "42" (.success ⟨"Done!", true⟩)
          ⟨"  hello ", false, false, false, []⟩).trace =
         ([] : List UIEvent) ++
           [.appendMsg "user" (CardEngine.trimStr "  hello "), .clearInput,
            .setSendDisabled true,
            .fetchCall "42" (CardEngine.trimStr "  hello "),
            .appendMsg "ai" resp.ai_response, .showBanner, .disableInput,
            .setSendDisabled false])) :=
  ⟨by decide,
   c10_send_button_reenabled "42" (.success ⟨"Done!", true⟩)
     ⟨"  hello ", false, false, false, []⟩ (by decide)⟩

end ConversationUI

